import Mathlib

/-!
Verification of the Tag-History timeline application.

This file gives a shallow embedding, in Lean 4, of the logic of the
Tag-History web application (a public timeline viewer plus an admin console):

* the category-filter transition function `handleCategorySelect`
  (pages/timeline.tsx);
* the zoom model on `yearSpacing` (config/timelineControls, modelled from
  the specification where the configuration module is not among the sources);
* the drag-release column computation of `EventBox.handleMouseUp`
  (components/timeline/EventBox);
* the events-snapshot subscription handlers (pages/timeline.tsx);
* the admin player form: alt-account input resolution and `handleSubmit`
  validation (pages/admin/player.tsx).

Theorems after the definitions settle the behavioural claims about this code.
-/

namespace TagHistory

/-! ## Category filter (pages/timeline.tsx) -/

/-- Modelled from the spec: the id of the sentinel "all events" dropdown
option comes from `config/dropdown`, which is not among the provided sources.
Only its role as a distinguished sentinel value matters. -/
def ALL_EVENTS_OPTION_id : String := "all"

/-- Initial state of `selectedCategories` (pages/timeline.tsx, lines 34-36):
the singleton sentinel. -/
def initialSelectedCategories : List String := [ALL_EVENTS_OPTION_id]

/-- The state-transition of `handleCategorySelect`
(pages/timeline.tsx, lines 110-128), acting on the previous selection. -/
def handleCategorySelect (prev : List String) (categoryId : String) : List String :=
  if categoryId == ALL_EVENTS_OPTION_id then
    [ALL_EVENTS_OPTION_id]
  else if prev.contains ALL_EVENTS_OPTION_id then
    [categoryId]
  else
    let newCategories :=
      if prev.contains categoryId then
        prev.filter (fun id => id != categoryId)
      else
        prev ++ [categoryId]
    if newCategories.length == 0 then [ALL_EVENTS_OPTION_id] else newCategories

/-- A finite sequence of category clicks applied from a starting selection. -/
def selectSequence (init : List String) (clicks : List String) : List String :=
  clicks.foldl handleCategorySelect init

/-! ## Zoom model -/

/-- Modelled from the spec: `zoomIn`, `zoomOut` and the spacing bounds live in
`src/config/timelineControls`, which is not among the provided sources.
Per spec section 4.1, zooming "multiplies/divides `yearSpacing` by a fixed
step factor, clamped to [min, max]". The configuration is abstracted as a
step factor strictly greater than one and a positive spacing range. -/
structure ZoomConfig where
  step : ℚ
  minSpacing : ℚ
  maxSpacing : ℚ
  one_lt_step : 1 < step
  minSpacing_pos : 0 < minSpacing
  minSpacing_le_maxSpacing : minSpacing ≤ maxSpacing

/-- Clamp a spacing value into the configured range. -/
def clampSpacing (cfg : ZoomConfig) (s : ℚ) : ℚ :=
  max cfg.minSpacing (min s cfg.maxSpacing)

/-- Modelled from the spec: zoom in multiplies `yearSpacing` by the step
factor and clamps. -/
def zoomIn (cfg : ZoomConfig) (s : ℚ) : ℚ :=
  clampSpacing cfg (s * cfg.step)

/-- Modelled from the spec: zoom out divides `yearSpacing` by the step
factor and clamps. -/
def zoomOut (cfg : ZoomConfig) (s : ℚ) : ℚ :=
  clampSpacing cfg (s / cfg.step)

/-! ## Timeline events and the drag-release column computation (EventBox) -/

/-- An in-memory timeline event. `dateMs` is the parsed timestamp of the
event's date string (the value of `new Date(event.date).getTime()`). -/
structure TimelineEvent where
  id : String
  title : String
  dateMs : Int
  category : String
  column : Int
deriving DecidableEq

/-- Horizontal origin of column 0 in `EventBox` (line 40). -/
def baseOffset : ℚ := 210

/-- Pixel width of one column in `EventBox` (line 41). -/
def columnWidth : ℚ := 220

/-- JavaScript `Math.round`: the floor of `q + 1/2` (ties round toward
positive infinity). -/
def jsRound (q : ℚ) : ℤ :=
  ⌊q + 1/2⌋

/-- The bounded column computed by `handleMouseUp` (EventBox, lines 84-86)
from the release coordinate `clientX` and the drag-start offset `startX`:
`finalX = clientX - startX`, `relativeX = finalX - baseOffset`,
`newColumn = round(relativeX / columnWidth)`, then clamp into [0, 19]. -/
def boundedColumnOf (clientX startX : ℚ) : ℤ :=
  max 0 (min (jsRound ((clientX - startX - baseOffset) / columnWidth)) 19)

/-- A call of the `onUpdateColumn` callback. -/
structure UpdateCall where
  eventId : String
  newColumn : Int
  position : ℚ
deriving DecidableEq

/-- The commit decision of `handleMouseUp` (EventBox, lines 78-100):
`column` is the event's current column as rendered; the callback fires only
when the bounded column differs from it. -/
def handleMouseUp (ev : TimelineEvent) (column : Int) (clientX startX position : ℚ) :
    Option UpdateCall :=
  if boundedColumnOf clientX startX != column then
    some ⟨ev.id, boundedColumnOf clientX startX, position⟩
  else
    none

/-- Modelled from the spec: the `onUpdateColumn` handler lives in
`TimelineGrid`, which is not among the provided sources. Per spec
section 4.1, "manual column reassignment, when persisted, writes the new
column back to the event's stored record": the event with the given id gets
the new column, all other records are untouched. -/
def applyUpdateColumn (events : List TimelineEvent) (eventId : String) (newColumn : Int) :
    List TimelineEvent :=
  events.map (fun e => if e.id == eventId then { e with column := newColumn } else e)

/-- A full drag release: run `handleMouseUp` for event `ev` (whose rendered
column is its stored column) and apply the emitted update, if any, to the
stored event list. -/
def commitRelease (events : List TimelineEvent) (ev : TimelineEvent)
    (clientX startX position : ℚ) : List TimelineEvent :=
  match handleMouseUp ev ev.column clientX startX position with
  | some call => applyUpdateColumn events call.eventId call.newColumn
  | none => events

/-! ## Events snapshot subscription (pages/timeline.tsx, lines 68-92) -/

/-- A raw document of the `events` collection as delivered by a snapshot. -/
structure EventDoc where
  id : String
  title : String
  dateMs : Int
  category : String
  column : Int
deriving DecidableEq

/-- The mapping applied to each snapshot document (lines 72-75). -/
def docToEvent (d : EventDoc) : TimelineEvent :=
  { id := d.id, title := d.title, dateMs := d.dateMs, category := d.category,
    column := d.column }

/-- The full event list built from one snapshot (lines 72-81): map every
document, then sort by parsed date ascending. -/
def processSnapshot (docs : List EventDoc) : List TimelineEvent :=
  (docs.map docToEvent).mergeSort (fun a b => a.dateMs ≤ b.dateMs)

/-- The state of the timeline page relevant to the subscription handlers. -/
structure PageState where
  events : List TimelineEvent
  isLoading : Bool
  error : Option String

/-- The snapshot success handler (lines 71-83): replace the whole event list
with the processed snapshot and clear the loading flag. -/
def onSnapshotNext (st : PageState) (docs : List EventDoc) : PageState :=
  { st with events := processSnapshot docs, isLoading := false }

/-- The error message set by the subscription error handler (line 86). -/
def subscriptionErrorMessage : String :=
  "Failed to load updates. Please refresh the page."

/-- The snapshot error handler (lines 84-88): set the user-visible error and
clear the loading flag; the event list is not touched. -/
def onSnapshotError (st : PageState) : PageState :=
  { st with error := some subscriptionErrorMessage, isLoading := false }

/-! ## Admin player form (pages/admin/player.tsx) -/

/-- JavaScript `String.prototype.trim()`: strip leading and trailing
whitespace. (Defined over the character list so that kernel evaluation
works; core `String.trim` is byte-position based and does not reduce.) -/
def jsTrim (s : String) : String :=
  ⟨((s.data.dropWhile Char.isWhitespace).reverse.dropWhile Char.isWhitespace).reverse⟩

/-- JavaScript `String.prototype.toLowerCase()` on the ASCII range. -/
def jsToLower (s : String) : String :=
  ⟨s.data.map Char.toLower⟩

/-- Split a character list at every dash, keeping empty pieces, as
JavaScript's split does. `acc` holds the current piece reversed. -/
def splitDashAux : List Char → List Char → List (List Char)
  | [], acc => [acc.reverse]
  | c :: cs, acc =>
    if c = '-' then acc.reverse :: splitDashAux cs [] else splitDashAux cs (c :: acc)

/-- A player document of the `players` collection. -/
structure Player where
  id : String
  currentIgn : String
  uuid : String
  pastIgns : List String
  role : Option String
  mainAccount : Option String
  altAccounts : List String
deriving DecidableEq

/-- Hexadecimal digit in either case, as in the character class of the
admin form's UUID regex. -/
def isHexDigit (c : Char) : Bool :=
  (('0' ≤ c) && (c ≤ '9')) || (('a' ≤ c) && (c ≤ 'f')) || (('A' ≤ c) && (c ≤ 'F'))

/-- The test of the form's UUID regex (player.tsx, lines 681 and 900):
five dash-separated groups of hex digits of lengths 8-4-4-4-12,
case-insensitive. -/
def uuidRegexTest (s : String) : Bool :=
  let parts := splitDashAux s.data []
  (parts.map List.length == [8, 4, 4, 4, 12]) &&
    parts.all (fun p => p.all isHexDigit)

/-- Does `p`'s current IGN or one of its past IGNs equal the input, ignoring
case? This is the predicate of `players.find` in the alt-account input
handler (player.tsx, lines 904-907). -/
def ignMatches (input : String) (p : Player) : Bool :=
  (jsToLower p.currentIgn == jsToLower input) ||
    p.pastIgns.any (fun ign => jsToLower ign == jsToLower input)

/-- The alt-account input `onChange` resolution (player.tsx, lines 896-913):
a candidate matching the UUID format is stored verbatim; otherwise the first
player whose current or past IGN matches it case-insensitively contributes
its UUID; otherwise the raw string is kept. -/
def resolveAltInput (players : List Player) (inputValue : String) : String :=
  if uuidRegexTest inputValue then
    inputValue
  else
    match players.find? (fun p => ignMatches inputValue p) with
    | some p => p.uuid
    | none => inputValue

/-- The player form state, as submitted. -/
structure PlayerForm where
  currentIgn : String
  uuid : String
  pastIgns : List String
  altAccounts : List String
  role : Option String
deriving DecidableEq

/-- A document write issued by `handleSubmit`: either the direct
`updateDoc` on the selected player, or the call to `updatePlayerData`. -/
inductive WriteAction where
  | updateDoc (playerId : String) (currentIgn : String) (uuid : String)
      (pastIgns : List String) (role : Option String)
  | updatePlayerData (currentIgn : String) (role : Option String)
      (altAccounts : List String)
deriving DecidableEq

/-- The outcome of one `handleSubmit` run: the error message set, if any,
and the document writes invoked, in order. -/
structure SubmitResult where
  error : Option String
  writes : List WriteAction
deriving DecidableEq

/-- The self-reference validation message (player.tsx, line 465). -/
def selfAltError : String := "A player cannot be their own alt account"

/-- The duplicate validation message (player.tsx, line 472). -/
def duplicateAltError : String := "Duplicate alt accounts are not allowed"

/-- The cleaned alt-account list of a form (player.tsx, line 426): entries
whose trimmed text is empty are dropped; kept entries stay verbatim. -/
def cleanAltAccountsOf (f : PlayerForm) : List String :=
  f.altAccounts.filter (fun alt => jsTrim alt != "")

/-- The cleaned past-IGN list of a form (player.tsx, line 425). -/
def cleanPastIgnsOf (f : PlayerForm) : List String :=
  f.pastIgns.filter (fun ign => jsTrim ign != "")

/-- Helper for `jsSetDedup`: `seen` holds the elements already emitted. -/
def jsSetDedupAux : List String → List String → List String
  | [], _ => []
  | a :: rest, seen =>
    if seen.contains a then jsSetDedupAux rest seen
    else a :: jsSetDedupAux rest (a :: seen)

/-- `[...new Set(xs)]` of JavaScript: deduplicate keeping the first
occurrence of each element, preserving order. -/
def jsSetDedup (l : List String) : List String :=
  jsSetDedupAux l []

/-- JavaScript `playerForm.role || null`: an empty-string role collapses
to null. -/
def normalizeRole (r : Option String) : Option String :=
  match r with
  | some "" => none
  | r => r

/-- The identity-resolution phase of `handleSubmit` (player.tsx,
lines 428-460). The two Mojang lookups are abstracted as oracles
`uuidToIgn` and `ignToUuid`; `none` covers both a non-ok response and a
network failure (the claims under study never inspect those messages).
A UUID with no IGN fetches the IGN; an IGN with no UUID fetches the UUID;
otherwise the form passes through unchanged. -/
def resolveIdentity (uuidToIgn ignToUuid : String → Option String)
    (f : PlayerForm) : Except String PlayerForm :=
  if jsTrim f.uuid != "" && jsTrim f.currentIgn == "" then
    match uuidToIgn f.uuid with
    | some name => .ok { f with currentIgn := name }
    | none => .error "Invalid UUID provided"
  else if jsTrim f.currentIgn != "" && jsTrim f.uuid == "" then
    match ignToUuid (jsTrim f.currentIgn) with
    | some uuid => .ok { f with uuid := uuid }
    | none => .error "Invalid IGN provided"
  else
    .ok f

/-- `handleSubmit` of the admin player page (player.tsx, lines 412-520),
as a pure function from the submitted form to the error set and the writes
invoked. `selectedPlayerId` is `selectedPlayer?.id`. Steps, in source
order: the basic required-field check; cleaning of past IGNs and alt
accounts; identity resolution through the lookup oracles; the
self-reference check against the resolved IGN and UUID; the duplicate check
via set-deduplication; then the `updateDoc` write (when a player is
selected) followed by the `updatePlayerData` call. -/
def handleSubmit (uuidToIgn ignToUuid : String → Option String)
    (selectedPlayerId : Option String) (f0 : PlayerForm) : SubmitResult :=
  if jsTrim f0.currentIgn == "" && jsTrim f0.uuid == "" then
    { error := some "Either Current IGN or UUID is required", writes := [] }
  else
    match resolveIdentity uuidToIgn ignToUuid f0 with
    | .error e => { error := some e, writes := [] }
    | .ok f =>
      if (cleanAltAccountsOf f0).contains (jsTrim f.currentIgn) ||
          (cleanAltAccountsOf f0).contains (jsTrim f.uuid) then
        { error := some selfAltError, writes := [] }
      else if (jsSetDedup (cleanAltAccountsOf f0)).length !=
          (cleanAltAccountsOf f0).length then
        { error := some duplicateAltError, writes := [] }
      else
        { error := none,
          writes :=
            (match selectedPlayerId with
             | some pid =>
                 [WriteAction.updateDoc pid (jsTrim f.currentIgn) (jsTrim f.uuid)
                    (cleanPastIgnsOf f0) (normalizeRole f.role)]
             | none => []) ++
            [WriteAction.updatePlayerData (jsTrim f.currentIgn)
               (normalizeRole f.role) (cleanAltAccountsOf f0)] }

/-- Modelled from the spec: the body of `updatePlayerData` lives in
`lib/playerUtils`, which is not among the provided sources. Per spec
section 4.3, "on accept, the alt's record is updated to reference the main
account": the main player (found by current IGN) receives the role and alt
list, and each player whose UUID is listed as an alt gets its
`mainAccount` pointed at the main player's UUID. -/
def updatePlayerDataModel (store : List Player) (ign : String)
    (role : Option String) (alts : List String) : List Player :=
  match store.find? (fun p => p.currentIgn == ign) with
  | none => store
  | some main =>
      store.map (fun p =>
        if p.currentIgn == ign then
          { p with role := role, altAccounts := alts }
        else if alts.contains p.uuid then
          { p with mainAccount := some main.uuid }
        else p)

/-- Apply one write to the stored `players` collection. `updateDoc` merges
the given fields into the document with the given id. -/
def applyWrite (store : List Player) : WriteAction → List Player
  | .updateDoc pid ign uuid pastIgns role =>
      store.map (fun p =>
        if p.id == pid then
          { p with
            currentIgn := ign
            uuid := uuid
            pastIgns := pastIgns
            role := role }
        else p)
  | .updatePlayerData ign role alts => updatePlayerDataModel store ign role alts

/-- Apply a list of writes in order. -/
def applyWrites (store : List Player) (ws : List WriteAction) : List Player :=
  ws.foldl applyWrite store

/-- A concrete zoom configuration used to exercise the zoom model. -/
def sampleZoomConfig : ZoomConfig where
  step := 3/2
  minSpacing := 10
  maxSpacing := 100
  one_lt_step := by norm_num
  minSpacing_pos := by norm_num
  minSpacing_le_maxSpacing := by norm_num

/-- The selection invariant maintained by the category filter: the selection
is never empty, and the sentinel occurs only as the whole selection. -/
def categoryInvariant (l : List String) : Prop :=
  l ≠ [] ∧ (ALL_EVENTS_OPTION_id ∈ l → l = [ALL_EVENTS_OPTION_id])

/-- A concrete player record used to exercise the admin-form logic. -/
def samplePlayer : Player :=
  { id := "p1", currentIgn := "Alice",
    uuid := "11111111-2222-3333-4444-555555555555", pastIgns := ["Al"],
    role := none, mainAccount := none, altAccounts := [] }

/-! ## Theorems -/

/-- One click always produces a selection satisfying `categoryInvariant`,
whatever the previous selection was. -/
theorem handleCategorySelect_invariant (prev : List String) (c : String) :
    categoryInvariant (handleCategorySelect prev c) := by
  unfold handleCategorySelect categoryInvariant
  by_cases h1 : (c == ALL_EVENTS_OPTION_id) = true
  · simp [h1]
  · rw [Bool.not_eq_true] at h1
    by_cases h2 : (prev.contains ALL_EVENTS_OPTION_id) = true
    · simp only [h1, h2, Bool.false_eq_true, if_false, if_true]
      refine ⟨by simp, fun hm => ?_⟩
      rw [List.mem_singleton] at hm
      rw [hm, beq_self_eq_true] at h1
      cases h1
    · rw [Bool.not_eq_true] at h2
      have hall : ALL_EVENTS_OPTION_id ∉ prev := by
        intro hm
        rw [List.contains_eq_any_beq] at h2
        simp only [List.any_eq_false] at h2
        exact h2 _ hm (beq_self_eq_true _)
      simp only [h1, h2, Bool.false_eq_true, if_false]
      have hcn : c ≠ ALL_EVENTS_OPTION_id := by
        intro hcontra
        rw [hcontra, beq_self_eq_true] at h1
        cases h1
      by_cases h3 : (prev.contains c) = true
      · simp only [h3, if_true]
        by_cases h4 : ((prev.filter (fun id => id != c)).length == 0) = true
        · simp [h4]
        · rw [Bool.not_eq_true] at h4
          simp only [h4, Bool.false_eq_true, if_false]
          refine ⟨?_, fun hm => ?_⟩
          · intro hnil
            rw [hnil] at h4
            simp at h4
          · exact absurd (List.mem_of_mem_filter hm) hall
      · simp only [h3, Bool.false_eq_true, if_false]
        by_cases h4 : ((prev ++ [c]).length == 0) = true
        · simp at h4
        · rw [Bool.not_eq_true] at h4
          simp only [h4, Bool.false_eq_true, if_false]
          refine ⟨by simp, fun hm => ?_⟩
          rw [List.mem_append, List.mem_singleton] at hm
          rcases hm with hm | hm
          · exact absurd hm hall
          · exact absurd hm.symm hcn

/-- The invariant propagates through any sequence of clicks. -/
theorem selectSequence_invariant (clicks : List String) :
    ∀ init, categoryInvariant init → categoryInvariant (selectSequence init clicks) := by
  induction clicks with
  | nil => exact fun init h => h
  | cons c cs ih =>
      exact fun init _ => ih (handleCategorySelect init c)
        (handleCategorySelect_invariant init c)

/-- Claim C10: starting from the initial default selection, after any finite
sequence of `handleCategorySelect` calls the selection is never empty, and
the sentinel appears only as the whole (singleton) selection, never next to
a specific category id. -/
theorem selectSequence_never_empty_sentinel_singleton (clicks : List String) :
    selectSequence initialSelectedCategories clicks ≠ [] ∧
    (ALL_EVENTS_OPTION_id ∈ selectSequence initialSelectedCategories clicks →
      selectSequence initialSelectedCategories clicks = [ALL_EVENTS_OPTION_id]) :=
  selectSequence_invariant clicks initialSelectedCategories ⟨by simp [initialSelectedCategories], fun _ => rfl⟩

/-- Witness for C10 at the click sequence `["x", "x"]`: selecting a category
and deselecting it again leaves the singleton sentinel, which is nonempty. -/
theorem selectSequence_never_empty_sentinel_singleton_witness :
    selectSequence initialSelectedCategories ["x", "x"] ≠ [] ∧
    selectSequence initialSelectedCategories ["x", "x"] = [ALL_EVENTS_OPTION_id] :=
  ⟨(selectSequence_never_empty_sentinel_singleton ["x", "x"]).1,
   (selectSequence_never_empty_sentinel_singleton ["x", "x"]).2 (by decide)⟩

/-- Claim C5: the category-filter transition function. Selecting the
sentinel from any state yields the singleton sentinel; selecting a specific
category while the sentinel is active yields that category's singleton;
toggling off the last remaining specific category yields the sentinel; and
selecting the sentinel after any selection returns the filter to the
initial default state. -/
theorem handleCategorySelect_transitions :
    (∀ prev, handleCategorySelect prev ALL_EVENTS_OPTION_id = [ALL_EVENTS_OPTION_id]) ∧
    (∀ prev c, c ≠ ALL_EVENTS_OPTION_id → ALL_EVENTS_OPTION_id ∈ prev →
      handleCategorySelect prev c = [c]) ∧
    (∀ c, c ≠ ALL_EVENTS_OPTION_id →
      handleCategorySelect [c] c = [ALL_EVENTS_OPTION_id]) ∧
    (∀ prev, handleCategorySelect prev ALL_EVENTS_OPTION_id = initialSelectedCategories) := by
  refine ⟨fun prev => by simp [handleCategorySelect], ?_, ?_,
    fun prev => by simp [handleCategorySelect, initialSelectedCategories]⟩
  · intro prev c hc hm
    simp [handleCategorySelect, hc, hm]
  · intro c hc
    simp [handleCategorySelect, hc]
    exact fun h => hc h.symm

/-- Witness for C5 at concrete selections (categories `"x"`, `"y"`). -/
theorem handleCategorySelect_transitions_witness :
    handleCategorySelect ["x", "y"] ALL_EVENTS_OPTION_id = [ALL_EVENTS_OPTION_id] ∧
    handleCategorySelect [ALL_EVENTS_OPTION_id] "x" = ["x"] ∧
    handleCategorySelect ["x"] "x" = [ALL_EVENTS_OPTION_id] ∧
    handleCategorySelect ["y"] ALL_EVENTS_OPTION_id = initialSelectedCategories :=
  ⟨handleCategorySelect_transitions.1 ["x", "y"],
   handleCategorySelect_transitions.2.1 [ALL_EVENTS_OPTION_id] "x" (by decide) (by decide),
   handleCategorySelect_transitions.2.2.1 "x" (by decide),
   handleCategorySelect_transitions.2.2.2 ["y"]⟩

/-- Claim C3: whenever a drag release commits a column, the committed column
is the release position rounded to the nearest column index and clamped
into [0, 19], hence always an integer between 0 and 19 inclusive, for every
possible release coordinate. -/
theorem handleMouseUp_column_bounded (ev : TimelineEvent) (column : Int)
    (clientX startX position : ℚ) (call : UpdateCall)
    (h : handleMouseUp ev column clientX startX position = some call) :
    call.newColumn =
      max 0 (min (jsRound ((clientX - startX - baseOffset) / columnWidth)) 19) ∧
    0 ≤ call.newColumn ∧ call.newColumn ≤ 19 := by
  unfold handleMouseUp at h
  split at h
  · cases h
    exact ⟨rfl, le_max_left 0 _, max_le (by norm_num) (min_le_right _ _)⟩
  · exact absurd h (by simp)

/-- Witness for C3: releasing at `clientX = 430` with zero drag offset
commits column 1, which lies in [0, 19]. -/
theorem handleMouseUp_column_bounded_witness :
    (0 : Int) ≤ (UpdateCall.mk "e1" 1 0).newColumn ∧
    (UpdateCall.mk "e1" 1 0).newColumn ≤ 19 :=
  (handleMouseUp_column_bounded ⟨"e1", "t", 0, "c", 0⟩ 0 430 0 0 ⟨"e1", 1, 0⟩ (by
    have h3 : jsRound (((430 : ℚ) - 0 - baseOffset) / columnWidth) = 1 := by
      unfold jsRound
      rw [show ((430 : ℚ) - 0 - baseOffset) / columnWidth + 1/2 = 3/2 by
        norm_num [baseOffset, columnWidth]]
      rw [Int.floor_eq_iff]
      constructor <;> norm_num
    have h1 : boundedColumnOf 430 0 = 1 := by
      unfold boundedColumnOf
      rw [h3]
      decide
    unfold handleMouseUp
    rw [h1]
    rfl)).2

/-- Claim C7: every snapshot replaces the whole in-memory event list (the
new list is a function of the snapshot documents alone and is a permutation
of the full mapped document set, never a partial merge), and the result is
sorted in non-decreasing order of event date. -/
theorem onSnapshotNext_replaces_events_sorted (st st2 : PageState)
    (docs : List EventDoc) :
    (onSnapshotNext st docs).events = processSnapshot docs ∧
    (onSnapshotNext st docs).events = (onSnapshotNext st2 docs).events ∧
    (processSnapshot docs).Perm (docs.map docToEvent) ∧
    (processSnapshot docs).Pairwise (fun a b => a.dateMs ≤ b.dateMs) := by
  refine ⟨rfl, rfl, List.mergeSort_perm _ _, ?_⟩
  have h := @List.sorted_mergeSort TimelineEvent
    (fun a b => decide (a.dateMs ≤ b.dateMs))
    (fun a b c hab hbc => by
      simp only [decide_eq_true_eq] at hab hbc ⊢
      omega)
    (fun a b => by
      simp only [Bool.or_eq_true, decide_eq_true_eq]
      exact Int.le_total a.dateMs b.dateMs)
    (docs.map docToEvent)
  exact h.imp (fun hab => of_decide_eq_true hab)

/-- Claim C8: the subscription error handler sets the user-visible error
message and leaves the previously held event list untouched. -/
theorem onSnapshotError_preserves_events (st : PageState) :
    (onSnapshotError st).events = st.events ∧
    (onSnapshotError st).error = some subscriptionErrorMessage :=
  ⟨rfl, rfl⟩

/-- Claim C9: for a spacing strictly inside the unclamped range, zoom-in
followed by zoom-out returns `yearSpacing` to its original value (exactly,
over ℚ); zoom-in at the max clamp boundary has no further effect, and
symmetrically zoom-out at the min boundary. -/
theorem zoom_roundtrip_clamp (cfg : ZoomConfig) (s : ℚ)
    (hmin : cfg.minSpacing ≤ s) (hmax : s * cfg.step ≤ cfg.maxSpacing) :
    zoomOut cfg (zoomIn cfg s) = s ∧
    zoomIn cfg cfg.maxSpacing = cfg.maxSpacing ∧
    zoomOut cfg cfg.minSpacing = cfg.minSpacing := by
  have hstep := cfg.one_lt_step
  have hpos := cfg.minSpacing_pos
  have hmle := cfg.minSpacing_le_maxSpacing
  have hstep0 : (0 : ℚ) < cfg.step := lt_trans one_pos hstep
  have hs : 0 < s := lt_of_lt_of_le hpos hmin
  have hs_le : s ≤ s * cfg.step := by nlinarith
  refine ⟨?_, ?_, ?_⟩
  · have hin : zoomIn cfg s = s * cfg.step := by
      unfold zoomIn clampSpacing
      rw [min_eq_left hmax, max_eq_right (hmin.trans hs_le)]
    rw [hin]
    unfold zoomOut clampSpacing
    rw [mul_div_cancel_right₀ s (ne_of_gt hstep0),
      min_eq_left (hs_le.trans hmax), max_eq_right hmin]
  · have hge : cfg.maxSpacing ≤ cfg.maxSpacing * cfg.step := by nlinarith
    unfold zoomIn clampSpacing
    rw [min_eq_right hge, max_eq_right hmle]
  · have hdle : cfg.minSpacing / cfg.step ≤ cfg.minSpacing :=
      div_le_self hpos.le hstep.le
    unfold zoomOut clampSpacing
    rw [min_eq_left (hdle.trans hmle), max_eq_left hdle]

/-- Witness for C9 at the sample configuration (step 3/2, range [10, 100])
and spacing 20. -/
theorem zoom_roundtrip_clamp_witness :
    zoomOut sampleZoomConfig (zoomIn sampleZoomConfig 20) = 20 ∧
    zoomIn sampleZoomConfig sampleZoomConfig.maxSpacing = sampleZoomConfig.maxSpacing ∧
    zoomOut sampleZoomConfig sampleZoomConfig.minSpacing = sampleZoomConfig.minSpacing :=
  zoom_roundtrip_clamp sampleZoomConfig 20
    (by norm_num [sampleZoomConfig]) (by norm_num [sampleZoomConfig])

/-- Claim C4: a drag release commits the computed column under exactly the
dragged event's id (any emitted `onUpdateColumn` call carries that id), and
the stored list after the commit is the original list with only the event
of that id set to the computed column — every other event is unchanged. -/
theorem commitRelease_updates_only_dragged (events : List TimelineEvent)
    (ev : TimelineEvent) (clientX startX position : ℚ)
    (hev : ev ∈ events) (hids : (events.map TimelineEvent.id).Nodup) :
    (∀ call, handleMouseUp ev ev.column clientX startX position = some call →
        call.eventId = ev.id ∧ call.newColumn = boundedColumnOf clientX startX) ∧
    commitRelease events ev clientX startX position =
      events.map (fun e =>
        if e.id = ev.id then { e with column := boundedColumnOf clientX startX }
        else e) := by
  constructor
  · intro call h
    unfold handleMouseUp at h
    split at h
    · cases h
      exact ⟨rfl, rfl⟩
    · exact absurd h (by simp)
  · rcases hcase : handleMouseUp ev ev.column clientX startX position with _ | call
    · have hb : boundedColumnOf clientX startX = ev.column := by
        unfold handleMouseUp at hcase
        by_cases hbc : (boundedColumnOf clientX startX != ev.column) = true
        · rw [if_pos hbc] at hcase
          cases hcase
        · rw [Bool.not_eq_true, bne_eq_false_iff_eq] at hbc
          exact hbc
      unfold commitRelease
      rw [hcase]
      show events = _
      symm
      rw [hb]
      have hfix : ∀ e ∈ events,
          (if e.id = ev.id then { e with column := ev.column } else e) = id e := by
        intro e he
        by_cases hid : e.id = ev.id
        · have hee : e = ev := List.inj_on_of_nodup_map hids he hev hid
          rw [if_pos hid, hee]
          rfl
        · rw [if_neg hid]
          rfl
      rw [List.map_congr_left hfix, List.map_id]
    · have hfields : call.eventId = ev.id ∧
          call.newColumn = boundedColumnOf clientX startX := by
        unfold handleMouseUp at hcase
        split at hcase
        · cases hcase
          exact ⟨rfl, rfl⟩
        · exact absurd hcase (by simp)
      unfold commitRelease
      rw [hcase]
      show applyUpdateColumn events call.eventId call.newColumn = _
      unfold applyUpdateColumn
      rw [hfields.1, hfields.2]
      apply List.map_congr_left
      intro e _
      by_cases hid : e.id = ev.id
      · rw [if_pos (beq_iff_eq.mpr hid), if_pos hid]
      · rw [if_neg (by simpa using hid), if_neg hid]

/-- Witness for C4: with two stored events, releasing the first over
column 1 rewrites only that event's column. -/
theorem commitRelease_updates_only_dragged_witness :
    commitRelease
        [⟨"e1", "a", 0, "c", 0⟩, ⟨"e2", "b", 5, "c", 2⟩]
        ⟨"e1", "a", 0, "c", 0⟩ 430 0 0 =
      [⟨"e1", "a", 0, "c", 0⟩, ⟨"e2", "b", 5, "c", 2⟩].map
        (fun e =>
          if e.id = (TimelineEvent.mk "e1" "a" 0 "c" 0).id then
            { e with column := boundedColumnOf 430 0 }
          else e) :=
  (commitRelease_updates_only_dragged
    [⟨"e1", "a", 0, "c", 0⟩, ⟨"e2", "b", 5, "c", 2⟩]
    ⟨"e1", "a", 0, "c", 0⟩ 430 0 0 (by decide) (by decide)).2

/-- Claim C6: the alt-account input resolution. A candidate matching the
UUID format is stored as-is; otherwise, if some player's current or past
IGN equals it case-insensitively, it is replaced by that player's UUID;
otherwise the raw string is kept. -/
theorem resolveAltInput_cases (players : List Player) (input : String) :
    (uuidRegexTest input = true → resolveAltInput players input = input) ∧
    (uuidRegexTest input = false →
      (∃ p, p ∈ players ∧ ignMatches input p = true ∧
          resolveAltInput players input = p.uuid) ∨
      ((∀ p ∈ players, ignMatches input p = false) ∧
        resolveAltInput players input = input)) := by
  constructor
  · intro hu
    unfold resolveAltInput
    rw [if_pos hu]
  · intro hu
    rcases hfind : players.find? (fun p => ignMatches input p) with _ | p
    · right
      have hres : resolveAltInput players input = input := by
        unfold resolveAltInput
        rw [if_neg (by simp [hu]), hfind]
      refine ⟨fun p hp => ?_, hres⟩
      have := List.find?_eq_none.mp hfind p hp
      simpa using this
    · left
      have hres : resolveAltInput players input = p.uuid := by
        unfold resolveAltInput
        rw [if_neg (by simp [hu]), hfind]
      exact ⟨p, List.mem_of_find?_eq_some hfind,
        List.find?_some hfind, hres⟩

/-- Witness for C6: a UUID-shaped candidate is kept verbatim, and the name
`"alice"` resolves case-insensitively to the sample player's UUID. -/
theorem resolveAltInput_cases_witness :
    resolveAltInput [] "11111111-2222-3333-4444-555555555555" =
      "11111111-2222-3333-4444-555555555555" ∧
    ((∃ p, p ∈ [samplePlayer] ∧ ignMatches "alice" p = true ∧
        resolveAltInput [samplePlayer] "alice" = p.uuid) ∨
     ((∀ p ∈ [samplePlayer], ignMatches "alice" p = false) ∧
       resolveAltInput [samplePlayer] "alice" = "alice")) :=
  ⟨(resolveAltInput_cases [] "11111111-2222-3333-4444-555555555555").1 (by decide),
   (resolveAltInput_cases [samplePlayer] "alice").2 (by decide)⟩

/-- The cleaned alt list never contains the empty string: every kept entry
trims to something nonempty. -/
theorem cleanAltAccountsOf_not_contains_empty (f0 : PlayerForm) :
    (cleanAltAccountsOf f0).contains "" = false := by
  unfold cleanAltAccountsOf
  rw [List.contains_eq_any_beq, List.any_eq_false]
  intro x hx
  rw [List.mem_filter] at hx
  intro hbeq
  rw [beq_iff_eq] at hbeq
  rw [← hbeq] at hx
  exact absurd hx.2 (by decide)

/-- Claim C1: a submitted form whose cleaned alt-account list contains the
player's own (resolved) UUID or own current IGN is rejected with the
self-alt error, and no document write is invoked: the writes list is empty
and the stored players collection is unchanged. -/
theorem handleSubmit_rejects_self_alt (uuidToIgn ignToUuid : String → Option String)
    (selectedPlayerId : Option String) (f0 f : PlayerForm) (store : List Player)
    (hres : resolveIdentity uuidToIgn ignToUuid f0 = .ok f)
    (hself : (cleanAltAccountsOf f0).contains (jsTrim f.currentIgn) = true ∨
             (cleanAltAccountsOf f0).contains (jsTrim f.uuid) = true) :
    handleSubmit uuidToIgn ignToUuid selectedPlayerId f0 =
      { error := some selfAltError, writes := [] } ∧
    applyWrites store (handleSubmit uuidToIgn ignToUuid selectedPlayerId f0).writes =
      store := by
  have hmain : handleSubmit uuidToIgn ignToUuid selectedPlayerId f0 =
      { error := some selfAltError, writes := [] } := by
    by_cases hbasic : (jsTrim f0.currentIgn == "" && jsTrim f0.uuid == "") = true
    · exfalso
      rw [Bool.and_eq_true, beq_iff_eq, beq_iff_eq] at hbasic
      have hf : f = f0 := by
        unfold resolveIdentity at hres
        rw [if_neg (by simp [hbasic.2]), if_neg (by simp [hbasic.1])] at hres
        cases hres
        rfl
      rcases hself with hs | hs
      · rw [hf, hbasic.1] at hs
        rw [cleanAltAccountsOf_not_contains_empty] at hs
        cases hs
      · rw [hf, hbasic.2] at hs
        rw [cleanAltAccountsOf_not_contains_empty] at hs
        cases hs
    · rw [Bool.not_eq_true] at hbasic
      unfold handleSubmit
      simp only [hbasic, Bool.false_eq_true, if_false, hres]
      rw [if_pos (Bool.or_eq_true _ _ |>.mpr hself)]
  exact ⟨hmain, by rw [hmain]; rfl⟩

/-- Witness for C1: a form listing its own UUID among its alts is rejected
with the self-alt error and the store is untouched. -/
theorem handleSubmit_rejects_self_alt_witness :
    handleSubmit (fun _ => none) (fun _ => none) (some "p1")
        ⟨"Alice", "u-1", [], ["u-1"], none⟩ =
      { error := some selfAltError, writes := [] } ∧
    applyWrites [samplePlayer]
        (handleSubmit (fun _ => none) (fun _ => none) (some "p1")
          ⟨"Alice", "u-1", [], ["u-1"], none⟩).writes = [samplePlayer] :=
  handleSubmit_rejects_self_alt (fun _ => none) (fun _ => none) (some "p1")
    ⟨"Alice", "u-1", [], ["u-1"], none⟩ ⟨"Alice", "u-1", [], ["u-1"], none⟩
    [samplePlayer] rfl (Or.inr (by decide))

/-- Counterexample to claim C2 as stated: the form listing its own UUID
twice among its alts has a duplicate cleaned alt list, yet `handleSubmit`
rejects it with the self-alt message, not the duplicate-alt message,
because the self-reference check runs first. -/
theorem handleSubmit_duplicate_message_counterexample :
    ¬ List.Nodup (cleanAltAccountsOf ⟨"Alice", "u-1", [], ["u-1", "u-1"], none⟩) ∧
    (handleSubmit (fun _ => none) (fun _ => none) none
        ⟨"Alice", "u-1", [], ["u-1", "u-1"], none⟩).error = some selfAltError ∧
    selfAltError ≠ duplicateAltError := by
  decide

/-- Claim C2 (amended): for every submitted form that passes the basic
required-field check and identity resolution and whose cleaned alt-account
list contains two equal entries, `handleSubmit` rejects the update before
any write occurs (no `updateDoc`, no `updatePlayerData`, store unchanged);
the error shown is 'Duplicate alt accounts are not allowed' provided the
list does not also trip the preceding self-reference check — when it does,
the self-alt message is shown instead, still with no write. -/
theorem handleSubmit_rejects_duplicate_alts (uuidToIgn ignToUuid : String → Option String)
    (selectedPlayerId : Option String) (f0 f : PlayerForm) (store : List Player)
    (hbasic : (jsTrim f0.currentIgn == "" && jsTrim f0.uuid == "") = false)
    (hres : resolveIdentity uuidToIgn ignToUuid f0 = .ok f)
    (hdup : ((jsSetDedup (cleanAltAccountsOf f0)).length !=
        (cleanAltAccountsOf f0).length) = true) :
    (handleSubmit uuidToIgn ignToUuid selectedPlayerId f0).writes = [] ∧
    applyWrites store (handleSubmit uuidToIgn ignToUuid selectedPlayerId f0).writes =
      store ∧
    ((cleanAltAccountsOf f0).contains (jsTrim f.currentIgn) = false →
     (cleanAltAccountsOf f0).contains (jsTrim f.uuid) = false →
      handleSubmit uuidToIgn ignToUuid selectedPlayerId f0 =
        { error := some duplicateAltError, writes := [] }) := by
  have hsub : handleSubmit uuidToIgn ignToUuid selectedPlayerId f0 =
      (if (cleanAltAccountsOf f0).contains (jsTrim f.currentIgn) ||
          (cleanAltAccountsOf f0).contains (jsTrim f.uuid) then
        ({ error := some selfAltError, writes := [] } : SubmitResult)
      else { error := some duplicateAltError, writes := [] }) := by
    unfold handleSubmit
    simp only [hbasic, Bool.false_eq_true, if_false, hres]
    by_cases hs : ((cleanAltAccountsOf f0).contains (jsTrim f.currentIgn) ||
        (cleanAltAccountsOf f0).contains (jsTrim f.uuid)) = true
    · rw [if_pos hs, if_pos hs]
    · rw [Bool.not_eq_true] at hs
      simp only [hs, Bool.false_eq_true, if_false]
      rw [if_pos hdup]
  by_cases hs : ((cleanAltAccountsOf f0).contains (jsTrim f.currentIgn) ||
      (cleanAltAccountsOf f0).contains (jsTrim f.uuid)) = true
  · rw [hsub, if_pos hs]
    refine ⟨rfl, rfl, fun h1 h2 => ?_⟩
    rw [Bool.or_eq_true] at hs
    rcases hs with hs | hs
    · rw [h1] at hs
      cases hs
    · rw [h2] at hs
      cases hs
  · rw [Bool.not_eq_true] at hs
    have hs2 : ¬(((cleanAltAccountsOf f0).contains (jsTrim f.currentIgn) ||
        (cleanAltAccountsOf f0).contains (jsTrim f.uuid)) = true) := by
      rw [hs]
      exact Bool.false_ne_true
    rw [hsub, if_neg hs2]
    exact ⟨rfl, rfl, fun _ _ => rfl⟩

/-- Witness for the amended C2: a form with the duplicate alt list
`["x", "x"]` (no self-reference) is rejected with the duplicate message and
the store is untouched. -/
theorem handleSubmit_rejects_duplicate_alts_witness :
    handleSubmit (fun _ => none) (fun _ => none) none
        ⟨"Alice", "u-1", [], ["x", "x"], none⟩ =
      { error := some duplicateAltError, writes := [] } ∧
    applyWrites [samplePlayer]
        (handleSubmit (fun _ => none) (fun _ => none) none
          ⟨"Alice", "u-1", [], ["x", "x"], none⟩).writes = [samplePlayer] :=
  ⟨(handleSubmit_rejects_duplicate_alts (fun _ => none) (fun _ => none) none
      ⟨"Alice", "u-1", [], ["x", "x"], none⟩ ⟨"Alice", "u-1", [], ["x", "x"], none⟩
      [samplePlayer] (by decide) rfl (by decide)).2.2 (by decide) (by decide),
   (handleSubmit_rejects_duplicate_alts (fun _ => none) (fun _ => none) none
      ⟨"Alice", "u-1", [], ["x", "x"], none⟩ ⟨"Alice", "u-1", [], ["x", "x"], none⟩
      [samplePlayer] (by decide) rfl (by decide)).2.1⟩

end TagHistory
